import Mathlib

/-!
Verification of the adaptive batch face-match scanning engine of `src/app.py`
(repository Mwi): policy selection, scan loop with early exit, face-match
adapter, archive builder, and candidate discovery truncation.

The embedding follows the source. The network fetch, the image decoding and
the face-recognition primitives are external effects; each candidate URL is
therefore represented by the outcome its fetch-and-match produces in a given
run (`CandidateOutcome`), exactly mirroring the tuple `check_face_match`
returns to the loop of `process_photos`.
-/

namespace Mwi

/-- The scan policy computed inline in `process_photos` (lines 240-251):
`max_images` and `face_tolerance` as functions of `total_images`.
The tolerance is a decimal constant, embedded as a rational. -/
structure ScanPolicy where
  max_images : Nat
  face_tolerance : ℚ
deriving Repr, DecidableEq

/-- Lines 240-251 of `src/app.py`: the size-adaptive limits.
`if total_images <= 30 ... elif total_images <= 100 ... else ...`. -/
def selectPolicy (total_images : Nat) : ScanPolicy :=
  if total_images ≤ 30 then
    { max_images := total_images, face_tolerance := 6/10 }
  else if total_images ≤ 100 then
    { max_images := min total_images 60, face_tolerance := 6/10 }
  else
    { max_images := 80, face_tolerance := 65/100 }

/-- Result of the HTTP fetch in `check_face_match` (line 116): either the
request/raise_for_status raised, or it produced the response content bytes. -/
inductive FetchResult where
  | fetchError : FetchResult
  | content (bytes : List Nat) : FetchResult
deriving Repr, DecidableEq

/-- `check_face_match`, real-library branch (lines 116-144, 164-170),
parametric in the external vision primitives: `imdecode` (cv2.imdecode,
`none` when the bytes do not decode), `face_encodings`
(face_recognition.face_encodings on the decoded image) and `compare`
(face_recognition.compare_faces of the reference with one detected face at
the given tolerance).  Any fetch error and any error inside the image
processing block are caught and turned into `(false, none)`. -/
def check_face_match_real {Img Enc : Type}
    (imdecode : List Nat → Option Img)
    (face_encodings : Img → List Enc)
    (compare : Enc → Enc → ℚ → Bool)
    (fetch : FetchResult) (reference_encoding : Enc) (tolerance : ℚ) :
    Bool × Option (List Nat) :=
  match fetch with
  | .fetchError => (false, none)
  | .content bytes =>
    match imdecode bytes with
    | none => (false, none)
    | some image =>
      let encodings := face_encodings image
      if encodings.isEmpty then (false, none)
      else if encodings.any (fun e => compare reference_encoding e tolerance) then
        (true, some bytes)
      else (false, none)

/-- Line 155 of `src/app.py`: `similarity_score = abs(image_encoding -
reference_encoding) % 100` (both encodings are Python ints). -/
def similarity_score (image_encoding reference_encoding : Int) : Nat :=
  (image_encoding - reference_encoding).natAbs % 100

/-- Line 156 of `src/app.py`: `is_match = similarity_score < 35 or
random.random() < 0.25`.  The value drawn by `random.random()` on this
invocation is the extra argument `randomDraw`. -/
def demo_is_match (image_encoding reference_encoding : Int) (randomDraw : ℚ) : Bool :=
  decide (similarity_score image_encoding reference_encoding < 35) || decide (randomDraw < 1/4)

/-- `check_face_match`, demo branch (lines 145-162, 164-170): `demo_encode`
is the PIL open/resize/hash pipeline of lines 147-152 (`none` when
`Image.open` raises, which the inner `except` turns into `(false, none)`);
on success it yields `image_encoding`. -/
def check_face_match_demo
    (demo_encode : List Nat → Option Int)
    (fetch : FetchResult) (reference_encoding : Int) (randomDraw : ℚ) :
    Bool × Option (List Nat) :=
  match fetch with
  | .fetchError => (false, none)
  | .content bytes =>
    match demo_encode bytes with
    | none => (false, none)
    | some image_encoding =>
      if demo_is_match image_encoding reference_encoding randomDraw then
        (true, some bytes)
      else (false, none)

/-- What one candidate's `check_face_match` call produced, as seen by the
loop of `process_photos`: the failure cases all map to `(False, None)` in the
source, a non-match to `(False, None)`, a match to `(True, content)`. -/
inductive CandidateOutcome where
  | fetchFail : CandidateOutcome
  | decodeFail : CandidateOutcome
  | noFace : CandidateOutcome
  | noMatch : CandidateOutcome
  | found (payload : List Nat) : CandidateOutcome
deriving Repr, DecidableEq

/-- The `(is_match, image_data)` pair `check_face_match` returns for each
outcome (lines 127, 134, 142, 144, 160, 162, 166, 170). -/
def outcomeResult : CandidateOutcome → Bool × Option (List Nat)
  | .found payload => (true, some payload)
  | _ => (false, none)

/-- Python truthiness of `image_data` in `if is_match and image_data:`
(line 262): `None` and empty bytes are falsy. -/
def pyTruthy : Option (List Nat) → Bool
  | none => false
  | some bytes => !bytes.isEmpty

/-- The mutable loop state of `process_photos` (lines 235-236). -/
structure ScanState where
  matched_images : List (List Nat)
  processed_count : Nat
deriving Repr, DecidableEq

/-- Lines 259-263: record one examined candidate — increment
`processed_count` and append the payload when `is_match and image_data`. -/
def stepState (st : ScanState) (o : CandidateOutcome) : ScanState :=
  let r := outcomeResult o
  { matched_images :=
      if r.1 && pyTruthy r.2 then st.matched_images ++ [r.2.getD []]
      else st.matched_images,
    processed_count := st.processed_count + 1 }

/-- Line 269: `total_images > 50 and len(matched_images) >= 15`. -/
def earlyExitFirst (total_images matchedLen : Nat) : Bool :=
  decide (50 < total_images) && decide (15 ≤ matchedLen)

/-- Line 272: `total_images > 100 and len(matched_images) >= 25`. -/
def earlyExitSecond (total_images matchedLen : Nat) : Bool :=
  decide (100 < total_images) && decide (25 ≤ matchedLen)

/-- The `elif` branch of line 272 fires only when the `if` of line 269 did
not: this is the condition under which the loop breaks via the second test. -/
def breakViaSecond (total_images matchedLen : Nat) : Bool :=
  !earlyExitFirst total_images matchedLen && earlyExitSecond total_images matchedLen

/-- Lines 268-274: does the loop break after this iteration
(`if ... break elif ... break`)? -/
def breakCond (total_images matchedLen : Nat) : Bool :=
  if earlyExitFirst total_images matchedLen then true
  else if earlyExitSecond total_images matchedLen then true
  else false

/-- The scan loop of `process_photos` (lines 256-278) over the outcomes of
the candidates it is handed (`image_urls[:max_images]` is applied by the
caller): examine each candidate in order, break when an early-exit condition
holds.  `check_face_match` catches all its exceptions, so the `except` of
lines 276-278 never receives a per-candidate error; the body is total. -/
def scanLoop (total_images : Nat) : List CandidateOutcome → ScanState → ScanState
  | [], st => st
  | o :: rest, st =>
    let st2 := stepState st o
    if breakCond total_images st2.matched_images.length then st2
    else scanLoop total_images rest st2

/-- The same loop with the `elif` of lines 272-274 deleted: only the first
early-exit test remains.  Used to state that the second branch is dead. -/
def scanLoopFirstOnly (total_images : Nat) : List CandidateOutcome → ScanState → ScanState
  | [], st => st
  | o :: rest, st =>
    let st2 := stepState st o
    if earlyExitFirst total_images st2.matched_images.length then st2
    else scanLoopFirstOnly total_images rest st2

/-- The indices `i` the `for i, url in enumerate(image_urls[:max_images])`
loop actually examines, starting from `start`: mirrors `scanLoop` exactly,
recording each visited index. -/
def scanExamined (total_images : Nat) : List CandidateOutcome → ScanState → Nat → List Nat
  | [], _, _ => []
  | o :: rest, st, start =>
    let st2 := stepState st o
    if breakCond total_images st2.matched_images.length then [start]
    else start :: scanExamined total_images rest st2 (start + 1)

/-- Lines 235-278 of `process_photos`, from the list of candidate outcomes:
compute the policy from `total_images = len(image_urls)`, truncate to
`max_images`, run the scan from the empty state. -/
def process_scan (image_urls : List CandidateOutcome) : ScanState :=
  let total_images := image_urls.length
  let policy := selectPolicy total_images
  scanLoop total_images (image_urls.take policy.max_images)
    { matched_images := [], processed_count := 0 }

/-- The payload of a matching candidate (`some` exactly when
`check_face_match` reported a match). -/
def matchPayload : CandidateOutcome → Option (List Nat)
  | .found payload => some payload
  | _ => none

/-- The payload the loop actually appends for a candidate: line 262 guards
the append with Python truthiness, so a match whose payload is the empty
byte string is dropped. -/
def appendedPayload : CandidateOutcome → Option (List Nat)
  | .found payload => if payload.isEmpty then none else some payload
  | _ => none

/-- Python's `f"\x7bn:03d\x7d"`: decimal rendering zero-padded on the left to
a minimum width of 3 (line 179). -/
def pad3 (n : Nat) : String :=
  String.mk (List.replicate (3 - (toString n).length) '0') ++ toString n

/-- Line 179 of `src/app.py`: the archive entry name for the element at
0-based position `i` of `matched_images`. -/
def zipEntryName (i : Nat) : String :=
  "photo_" ++ pad3 (i + 1) ++ ".jpg"

/-- The `for i, image_data in enumerate(matched_images)` loop of lines
178-180, starting the counter at `start`: each payload becomes one named
archive entry, in order. -/
def zipEntries : Nat → List (List Nat) → List (String × List Nat)
  | _, [] => []
  | start, b :: rest => (zipEntryName start, b) :: zipEntries (start + 1) rest

/-- `create_photos_zip` (lines 172-187), at the level of archive entries:
the ZIP container serialization (`zipfile.ZipFile` with `ZIP_DEFLATED`) is an
external library; the function determines the ordered list of (name, bytes)
entries written into it. -/
def create_photos_zip (matched_images : List (List Nat)) : List (String × List Nat) :=
  zipEntries 0 matched_images

/-- Line 76 of `src/app.py`: the direct download URL built for a file id. -/
def direct_url (file_id : String) : String :=
  "https://drive.google.com/uc?id=" ++ file_id ++ "&export=download"

/-- `get_drive_images` (lines 57-83), from the list of potential file ids
the regex found on the fetched page: `potential_ids[:max_images]`, keep ids
of length at least 25, build direct URLs, and truncate the result to
`max_images` again.  The handler calls it with the default
`max_images = 50` (line 229). -/
def get_drive_images (potential_ids : List String) (max_images : Nat) : List String :=
  ((((potential_ids.take max_images).filter
      (fun s => decide (25 ≤ s.length))).map direct_url).take max_images)

/-! ## Helper lemmas -/

lemma stepState_processed (st : ScanState) (o : CandidateOutcome) :
    (stepState st o).processed_count = st.processed_count + 1 := rfl

lemma stepState_matched (st : ScanState) (o : CandidateOutcome) :
    (stepState st o).matched_images = st.matched_images ++ (appendedPayload o).toList := by
  cases o with
  | found p =>
    cases hp : p.isEmpty <;>
      simp [stepState, outcomeResult, appendedPayload, pyTruthy, hp]
  | fetchFail => simp [stepState, outcomeResult, appendedPayload, pyTruthy]
  | decodeFail => simp [stepState, outcomeResult, appendedPayload, pyTruthy]
  | noFace => simp [stepState, outcomeResult, appendedPayload, pyTruthy]
  | noMatch => simp [stepState, outcomeResult, appendedPayload, pyTruthy]

lemma breakViaSecond_false (t l : Nat) : breakViaSecond t l = false := by
  simp only [breakViaSecond, earlyExitFirst, earlyExitSecond]
  by_cases h1 : 100 < t
  · by_cases h2 : 25 ≤ l
    · simp [h1, h2, show 50 < t by omega, show 15 ≤ l by omega]
    · simp [h2]
  · simp [h1]

lemma breakCond_eq_first (t l : Nat) : breakCond t l = earlyExitFirst t l := by
  have h2 := breakViaSecond_false t l
  rw [breakViaSecond] at h2
  cases h1 : earlyExitFirst t l with
  | true => simp [breakCond, h1]
  | false =>
    rw [h1] at h2
    simp only [Bool.not_false, Bool.true_and] at h2
    simp [breakCond, h1, h2]

lemma breakCond_of_le50 (t : Nat) (ht : t ≤ 50) (l : Nat) : breakCond t l = false := by
  rw [breakCond_eq_first]
  simp only [earlyExitFirst, Bool.and_eq_false_iff, decide_eq_false_iff_not]
  left; omega

lemma scanLoop_of_no_break (t : Nat) (hb : ∀ l, breakCond t l = false)
    (cs : List CandidateOutcome) (st : ScanState) :
    scanLoop t cs st =
      { matched_images := st.matched_images ++ cs.filterMap appendedPayload,
        processed_count := st.processed_count + cs.length } := by
  induction cs generalizing st with
  | nil => simp [scanLoop]
  | cons o rest ih =>
    rw [scanLoop, hb]
    simp only [Bool.false_eq_true, if_false, ih (stepState st o)]
    rw [stepState_matched, stepState_processed, List.filterMap_cons]
    cases h : appendedPayload o <;> simp [h, List.append_assoc] <;> omega

lemma selectPolicy_max_le (t : Nat) : (selectPolicy t).max_images ≤ t := by
  simp only [selectPolicy]
  split
  · exact Nat.le_refl t
  · split
    · exact Nat.min_le_left t 60
    · show 80 ≤ t
      omega

lemma zipEntries_length (start : Nat) (bs : List (List Nat)) :
    (zipEntries start bs).length = bs.length := by
  induction bs generalizing start with
  | nil => rfl
  | cons b rest ih => simp [zipEntries, ih]

lemma zipEntries_getElem? (start i : Nat) (bs : List (List Nat)) :
    (zipEntries start bs)[i]? = bs[i]?.map (fun b => (zipEntryName (start + i), b)) := by
  induction bs generalizing start i with
  | nil => simp [zipEntries]
  | cons b rest ih =>
    cases i with
    | zero => simp [zipEntries]
    | succ j =>
      have := ih (start + 1) j
      simp only [zipEntries, List.getElem?_cons_succ]
      rw [this]
      have harith : start + 1 + j = start + (j + 1) := by omega
      rw [harith]

lemma scanLoop_processed_ge (t : Nat) (cs : List CandidateOutcome) (st : ScanState) :
    st.processed_count ≤ (scanLoop t cs st).processed_count := by
  induction cs generalizing st with
  | nil => simp [scanLoop]
  | cons o rest ih =>
    rw [scanLoop]
    cases h : breakCond t (stepState st o).matched_images.length with
    | true =>
      rw [if_pos rfl, stepState_processed]
      omega
    | false =>
      rw [if_neg Bool.false_ne_true]
      have := ih (stepState st o)
      rw [stepState_processed] at this
      omega

lemma scanLoop_processed_le (t : Nat) (cs : List CandidateOutcome) (st : ScanState) :
    (scanLoop t cs st).processed_count ≤ st.processed_count + cs.length := by
  induction cs generalizing st with
  | nil => simp [scanLoop]
  | cons o rest ih =>
    rw [scanLoop]
    cases h : breakCond t (stepState st o).matched_images.length with
    | true =>
      rw [if_pos rfl, stepState_processed]
      simp only [List.length_cons]
      omega
    | false =>
      rw [if_neg Bool.false_ne_true]
      have := ih (stepState st o)
      rw [stepState_processed] at this
      simp only [List.length_cons]
      omega

lemma scanExamined_eq_range (t : Nat) (cs : List CandidateOutcome) (st : ScanState)
    (start : Nat) :
    scanExamined t cs st start =
      List.range' start ((scanLoop t cs st).processed_count - st.processed_count) := by
  induction cs generalizing st start with
  | nil => simp [scanExamined, scanLoop]
  | cons o rest ih =>
    rw [scanExamined, scanLoop]
    cases h : breakCond t (stepState st o).matched_images.length with
    | true =>
      rw [if_pos rfl, if_pos rfl, stepState_processed, Nat.add_sub_cancel_left]
      rfl
    | false =>
      rw [if_neg Bool.false_ne_true, if_neg Bool.false_ne_true]
      rw [ih (stepState st o) (start + 1)]
      have hge := scanLoop_processed_ge t rest (stepState st o)
      rw [stepState_processed] at hge
      have harith : (scanLoop t rest (stepState st o)).processed_count - st.processed_count =
          ((scanLoop t rest (stepState st o)).processed_count -
            (stepState st o).processed_count) + 1 := by
        rw [stepState_processed]
        omega
      rw [harith, List.range'_succ]

lemma scanLoop_matches_break (t : Nat) (ht : 50 < t) (ps : List (List Nat)) :
    ∀ (st : ScanState) (rest : List CandidateOutcome),
      ps ≠ [] →
      (∀ p ∈ ps, p ≠ []) →
      st.matched_images.length + ps.length = 15 →
      (scanLoop t (ps.map CandidateOutcome.found ++ rest) st).processed_count =
        st.processed_count + ps.length := by
  induction ps with
  | nil => intro st rest hnil _ _; exact absurd rfl hnil
  | cons p ps ih =>
    intro st rest _ hall hlen
    have hp : p ≠ [] := hall p (List.mem_cons_self p ps)
    have hstep : (stepState st (CandidateOutcome.found p)).matched_images =
        st.matched_images ++ [p] := by
      rw [stepState_matched]
      have : p.isEmpty = false := by
        cases p with
        | nil => exact absurd rfl hp
        | cons a l => rfl
      simp [appendedPayload, this]
    rw [List.map_cons, List.cons_append, scanLoop]
    cases ps with
    | nil =>
      have h15 : (stepState st (CandidateOutcome.found p)).matched_images.length = 15 := by
        rw [hstep]
        simp only [List.length_append, List.length_cons, List.length_nil] at hlen ⊢
        omega
      have hbc : breakCond t
          (stepState st (CandidateOutcome.found p)).matched_images.length = true := by
        rw [h15, breakCond_eq_first]
        simp [earlyExitFirst, ht]
      rw [hbc, if_pos rfl, stepState_processed]
      simp
    | cons q ps2 =>
      have hlt : (stepState st (CandidateOutcome.found p)).matched_images.length < 15 := by
        rw [hstep]
        simp only [List.length_append, List.length_cons, List.length_nil] at hlen ⊢
        omega
      have hbc : breakCond t
          (stepState st (CandidateOutcome.found p)).matched_images.length = false := by
        rw [breakCond_eq_first]
        simp only [earlyExitFirst, Bool.and_eq_false_iff, decide_eq_false_iff_not]
        right; omega
      rw [hbc, if_neg Bool.false_ne_true]
      have := ih (stepState st (CandidateOutcome.found p)) rest
        (List.cons_ne_nil q ps2)
        (fun x hx => hall x (List.mem_cons_of_mem p hx))
        (by
          rw [hstep]
          simp only [List.length_append, List.length_cons, List.length_nil] at hlen ⊢
          omega)
      rw [this, stepState_processed]
      simp only [List.length_cons]
      omega

lemma selectPolicy_max_of_le50 (t : Nat) (h : t ≤ 50) :
    (selectPolicy t).max_images = t := by
  simp only [selectPolicy]
  split
  · rfl
  · split
    · show min t 60 = t
      omega
    · omega

lemma selectPolicy_tol_of_le50 (t : Nat) (h : t ≤ 50) :
    (selectPolicy t).face_tolerance = 6/10 := by
  simp only [selectPolicy]
  split
  · rfl
  · split
    · rfl
    · omega

/-! ## Claims -/

/-- C1: the policy selection is a total function of the candidate count:
total ≤ 30 gives (total, 0.60); total in [31,100] gives (min(total,60),
0.60); total > 100 gives (80, 0.65). -/
theorem policy_total_function (total_images : Nat) :
    (total_images ≤ 30 →
      selectPolicy total_images =
        { max_images := total_images, face_tolerance := 6/10 }) ∧
    (31 ≤ total_images → total_images ≤ 100 →
      selectPolicy total_images =
        { max_images := min total_images 60, face_tolerance := 6/10 }) ∧
    (100 < total_images →
      selectPolicy total_images =
        { max_images := 80, face_tolerance := 65/100 }) := by
  refine ⟨fun h => ?_, fun h1 h2 => ?_, fun h => ?_⟩
  · simp only [selectPolicy]
    rw [if_pos h]
  · simp only [selectPolicy]
    rw [if_neg (by omega), if_pos h2]
  · simp only [selectPolicy]
    rw [if_neg (by omega), if_neg (by omega)]

/-- Witness for C1: the three tiers evaluated at totals 20, 50 and 150. -/
theorem policy_total_function_witness :
    selectPolicy 20 = { max_images := 20, face_tolerance := 6/10 } ∧
    selectPolicy 50 = { max_images := min 50 60, face_tolerance := 6/10 } ∧
    selectPolicy 150 = { max_images := 80, face_tolerance := 65/100 } :=
  ⟨(policy_total_function 20).1 (by decide),
   (policy_total_function 50).2.1 (by decide) (by decide),
   (policy_total_function 150).2.2 (by decide)⟩

/-- C2: early exit — whenever totalCandidates > 50 the loop stops right
after the candidate at which `matched_images` reaches 15 entries (the rest
are never examined); for totalCandidates ≤ 50 no early exit occurs and every
handed candidate is examined; in particular a 60-candidate sequence whose
first 15 candidates all match is examined for exactly 15 candidates. -/
theorem early_exit_at_threshold (total_images : Nat) (o : CandidateOutcome)
    (rest cs : List CandidateOutcome) (st : ScanState) (ps : List (List Nat)) :
    (50 < total_images →
      15 ≤ (stepState st o).matched_images.length →
      scanLoop total_images (o :: rest) st = stepState st o) ∧
    (total_images ≤ 50 →
      (scanLoop total_images cs st).processed_count = st.processed_count + cs.length) ∧
    (ps.length = 15 → (∀ p ∈ ps, p ≠ []) →
      ∀ rest2 : List CandidateOutcome, rest2.length = 45 →
      (process_scan (ps.map CandidateOutcome.found ++ rest2)).processed_count = 15) := by
  refine ⟨fun h50 h15 => ?_, fun h50 => ?_, fun hlen hne rest2 hr2 => ?_⟩
  · have hbc : breakCond total_images (stepState st o).matched_images.length = true := by
      rw [breakCond_eq_first]
      simp only [earlyExitFirst, Bool.and_eq_true, decide_eq_true_eq]
      exact ⟨h50, h15⟩
    rw [scanLoop, hbc, if_pos rfl]
  · rw [scanLoop_of_no_break total_images (breakCond_of_le50 total_images h50) cs st]
  · have htot : (ps.map CandidateOutcome.found ++ rest2).length = 60 := by
      simp [hlen, hr2]
    show (scanLoop (ps.map CandidateOutcome.found ++ rest2).length
        ((ps.map CandidateOutcome.found ++ rest2).take
          (selectPolicy (ps.map CandidateOutcome.found ++ rest2).length).max_images)
        { matched_images := [], processed_count := 0 }).processed_count = 15
    rw [htot]
    have hpol : (selectPolicy 60).max_images = 60 := by decide
    rw [hpol, show (60 : Nat) = (ps.map CandidateOutcome.found ++ rest2).length from htot.symm,
      List.take_length]
    have := scanLoop_matches_break (ps.map CandidateOutcome.found ++ rest2).length
      (by rw [htot]; omega) ps { matched_images := [], processed_count := 0 } rest2
      (by intro hnil; rw [hnil] at hlen; simp at hlen) hne
      (by simp [hlen])
    rw [this, hlen]

/-- Witness for C2: a break right at the 15th match with 60 candidates, a
full examination of two candidates when total is 10, and the concrete
60-candidate sequence with matches at indices 0..14 examining exactly 15. -/
theorem early_exit_at_threshold_witness :
    scanLoop 60 [CandidateOutcome.found [1]]
      { matched_images := List.replicate 14 [2], processed_count := 14 } =
      stepState { matched_images := List.replicate 14 [2], processed_count := 14 }
        (CandidateOutcome.found [1]) ∧
    (scanLoop 10 [CandidateOutcome.noMatch, CandidateOutcome.found [3]]
      { matched_images := [], processed_count := 0 }).processed_count = 0 + 2 ∧
    (process_scan ((List.replicate 15 [1]).map CandidateOutcome.found ++
      List.replicate 45 CandidateOutcome.noMatch)).processed_count = 15 :=
  ⟨(early_exit_at_threshold 60 (CandidateOutcome.found [1]) [] []
      { matched_images := List.replicate 14 [2], processed_count := 14 } []).1
      (by decide) (by decide),
   (early_exit_at_threshold 10 CandidateOutcome.noMatch []
      [CandidateOutcome.noMatch, CandidateOutcome.found [3]]
      { matched_images := [], processed_count := 0 } []).2.1 (by decide),
   (early_exit_at_threshold 60 CandidateOutcome.noMatch [] []
      { matched_images := [], processed_count := 0 } (List.replicate 15 [1])).2.2
      (by decide) (by decide) (List.replicate 45 CandidateOutcome.noMatch) (by decide)⟩

/-- C5: per-candidate failure isolation — a candidate whose fetch, decode or
face comparison fails contributes no entry to `matched_images`, and the scan
continues with the next candidate (the failure is absorbed as the
`(False, None)` return of `check_face_match`; no error propagates, the loop
body being total).  The continuation hypothesis covers every state in which
the loop would not break anyway: fewer than 15 matches so far, or a total of
at most 50 candidates (every shipped scan), in which case the loop continues
past the failing candidate regardless of how many matches accumulated. -/
theorem candidate_failure_isolation (total_images : Nat) (o : CandidateOutcome)
    (rest : List CandidateOutcome) (st : ScanState)
    (hfail : o = CandidateOutcome.fetchFail ∨ o = CandidateOutcome.decodeFail ∨
      o = CandidateOutcome.noFace)
    (hcont : st.matched_images.length < 15 ∨ total_images ≤ 50) :
    (stepState st o).matched_images = st.matched_images ∧
    scanLoop total_images (o :: rest) st = scanLoop total_images rest (stepState st o) := by
  have hm : (stepState st o).matched_images = st.matched_images := by
    rcases hfail with h | h | h <;> subst h <;> rfl
  refine ⟨hm, ?_⟩
  have hbc : breakCond total_images (stepState st o).matched_images.length = false := by
    rw [hm, breakCond_eq_first]
    simp only [earlyExitFirst, Bool.and_eq_false_iff, decide_eq_false_iff_not]
    rcases hcont with h | h
    · right
      omega
    · left
      omega
  rw [scanLoop, hbc, if_neg Bool.false_ne_true]

/-- Witness for C5: a fetch failure with no matches yet (total 60) is
skipped and the scan moves on; and a decode failure after 16 accumulated
matches in a 40-candidate scan — a state a shipped scan can reach, where no
early exit applies — is likewise skipped with the scan continuing. -/
theorem candidate_failure_isolation_witness :
    ((stepState { matched_images := [], processed_count := 0 }
        CandidateOutcome.fetchFail).matched_images =
      ScanState.matched_images { matched_images := [], processed_count := 0 } ∧
     scanLoop 60 [CandidateOutcome.fetchFail, CandidateOutcome.found [1]]
        { matched_images := [], processed_count := 0 } =
      scanLoop 60 [CandidateOutcome.found [1]]
        (stepState { matched_images := [], processed_count := 0 }
          CandidateOutcome.fetchFail)) ∧
    ((stepState { matched_images := List.replicate 16 [2], processed_count := 20 }
        CandidateOutcome.decodeFail).matched_images =
      ScanState.matched_images
        { matched_images := List.replicate 16 [2], processed_count := 20 } ∧
     scanLoop 40 [CandidateOutcome.decodeFail, CandidateOutcome.found [1]]
        { matched_images := List.replicate 16 [2], processed_count := 20 } =
      scanLoop 40 [CandidateOutcome.found [1]]
        (stepState { matched_images := List.replicate 16 [2], processed_count := 20 }
          CandidateOutcome.decodeFail)) :=
  ⟨candidate_failure_isolation 60 CandidateOutcome.fetchFail [CandidateOutcome.found [1]]
      { matched_images := [], processed_count := 0 } (Or.inl rfl) (Or.inl (by decide)),
   candidate_failure_isolation 40 CandidateOutcome.decodeFail [CandidateOutcome.found [1]]
      { matched_images := List.replicate 16 [2], processed_count := 20 }
      (Or.inr (Or.inl rfl)) (Or.inr (by decide))⟩

/-- C6: order preservation — for a sequence of at most 50 candidates (no
early exit, every candidate examined) whose match payloads are non-empty
byte strings, `matched_images` is exactly the payloads of the matching
candidates in ascending candidate-index order. -/
theorem matched_order_preservation (cs : List CandidateOutcome)
    (h50 : cs.length ≤ 50)
    (hne : ∀ o ∈ cs, matchPayload o ≠ some []) :
    (process_scan cs).matched_images = cs.filterMap matchPayload := by
  show (scanLoop cs.length (cs.take (selectPolicy cs.length).max_images)
    { matched_images := [], processed_count := 0 }).matched_images = cs.filterMap matchPayload
  rw [selectPolicy_max_of_le50 cs.length h50, List.take_length,
    scanLoop_of_no_break cs.length (breakCond_of_le50 cs.length h50) cs _]
  show [] ++ cs.filterMap appendedPayload = cs.filterMap matchPayload
  rw [List.nil_append]
  refine List.filterMap_congr fun o ho => ?_
  cases o with
  | found p =>
    have hp : p ≠ [] := by
      intro hnil
      exact hne _ ho (by rw [hnil]; rfl)
    have : p.isEmpty = false := by
      cases p with
      | nil => exact absurd rfl hp
      | cons a l => rfl
    simp [appendedPayload, matchPayload, this]
  | fetchFail => rfl
  | decodeFail => rfl
  | noFace => rfl
  | noMatch => rfl

/-- Witness for C6: ten candidates with matches only at indices 2, 5 and 9
yield the three payloads in that order. -/
theorem matched_order_preservation_witness :
    (process_scan [CandidateOutcome.noMatch, CandidateOutcome.noMatch,
      CandidateOutcome.found [2], CandidateOutcome.noMatch, CandidateOutcome.fetchFail,
      CandidateOutcome.found [5], CandidateOutcome.noFace, CandidateOutcome.noMatch,
      CandidateOutcome.decodeFail, CandidateOutcome.found [9]]).matched_images =
    ([CandidateOutcome.noMatch, CandidateOutcome.noMatch,
      CandidateOutcome.found [2], CandidateOutcome.noMatch, CandidateOutcome.fetchFail,
      CandidateOutcome.found [5], CandidateOutcome.noFace, CandidateOutcome.noMatch,
      CandidateOutcome.decodeFail, CandidateOutcome.found [9]]).filterMap matchPayload :=
  matched_order_preservation _ (by decide) (by decide)

/-- C9: scan-session invariant — in every run, the number of examined
candidates is at most `max_images`, `max_images` is at most the total
candidate count, and the examined candidate indices are exactly
`0, 1, ..., examined-1` in order: no index is ever examined twice. -/
theorem scan_session_invariant (cs : List CandidateOutcome) :
    (process_scan cs).processed_count ≤ (selectPolicy cs.length).max_images ∧
    (selectPolicy cs.length).max_images ≤ cs.length ∧
    scanExamined cs.length (cs.take (selectPolicy cs.length).max_images)
        { matched_images := [], processed_count := 0 } 0 =
      List.range (process_scan cs).processed_count := by
  refine ⟨?_, selectPolicy_max_le cs.length, ?_⟩
  · have h := scanLoop_processed_le cs.length
      (cs.take (selectPolicy cs.length).max_images)
      { matched_images := [], processed_count := 0 }
    have hlen : (cs.take (selectPolicy cs.length).max_images).length ≤
        (selectPolicy cs.length).max_images := by
      rw [List.length_take]
      exact Nat.min_le_left _ _
    show (scanLoop cs.length (cs.take (selectPolicy cs.length).max_images)
      { matched_images := [], processed_count := 0 }).processed_count ≤ _
    have hz : ({ matched_images := [], processed_count := 0 } : ScanState).processed_count = 0 :=
      rfl
    omega
  · have h := scanExamined_eq_range cs.length
      (cs.take (selectPolicy cs.length).max_images)
      { matched_images := [], processed_count := 0 } 0
    rw [h, List.range_eq_range']
    show List.range' 0 (_ - 0) = List.range' 0 _
    rw [Nat.sub_zero]
    rfl

/-- C10: in the composed flow the handler calls `get_drive_images` with its
default `max_images = 50`, so every scan sees at most 50 candidates;
consequently the medium-tier cap of 60 never binds (`max_images` equals the
total), the large-folder tier (tolerance 0.65, cap 80) is never selected,
and neither early-exit condition can ever fire, so the scan always examines
every handed candidate. -/
theorem discovery_caps_scan (potential_ids : List String) :
    (get_drive_images potential_ids 50).length ≤ 50 ∧
    (selectPolicy (get_drive_images potential_ids 50).length).max_images =
      (get_drive_images potential_ids 50).length ∧
    (selectPolicy (get_drive_images potential_ids 50).length).face_tolerance = 6/10 ∧
    (∀ matchedLen,
      earlyExitFirst (get_drive_images potential_ids 50).length matchedLen = false ∧
      earlyExitSecond (get_drive_images potential_ids 50).length matchedLen = false) ∧
    (∀ (cs : List CandidateOutcome) (st : ScanState),
      (scanLoop (get_drive_images potential_ids 50).length cs st).processed_count =
        st.processed_count + cs.length) := by
  have h50 : (get_drive_images potential_ids 50).length ≤ 50 := by
    rw [get_drive_images, List.length_take]
    exact Nat.min_le_left _ _
  refine ⟨h50, selectPolicy_max_of_le50 _ h50, selectPolicy_tol_of_le50 _ h50,
    fun matchedLen => ⟨?_, ?_⟩, fun cs st => ?_⟩
  · simp only [earlyExitFirst, Bool.and_eq_false_iff, decide_eq_false_iff_not]
    left
    omega
  · simp only [earlyExitSecond, Bool.and_eq_false_iff, decide_eq_false_iff_not]
    left
    omega
  · rw [scanLoop_of_no_break _ (breakCond_of_le50 _ h50) cs st]

/-- C3: the second early-exit branch (the `elif` of lines 272-274) is dead
code: it never causes the loop to break — the scan loop is extensionally
equal to the loop with that branch deleted, because whenever the second
condition holds the first already held. -/
theorem second_early_exit_dead (total_images matchedLen : Nat)
    (cs : List CandidateOutcome) (st : ScanState) :
    breakViaSecond total_images matchedLen = false ∧
    scanLoop total_images cs st = scanLoopFirstOnly total_images cs st := by
  refine ⟨breakViaSecond_false _ _, ?_⟩
  induction cs generalizing st with
  | nil => rfl
  | cons o rest ih =>
    rw [scanLoop, scanLoopFirstOnly, breakCond_eq_first]
    cases h : earlyExitFirst total_images (stepState st o).matched_images.length with
    | true => simp [h]
    | false => simp [h, ih]

/-- C7: building the archive from payloads `bs` yields exactly
`bs.length` entries; the entry at 0-based position `i` is
`(photo_{i+1:03d}.jpg, bs[i])` with the bytes unchanged; in particular
`[b1, b2]` yields entries `photo_001.jpg ↦ b1` and `photo_002.jpg ↦ b2`.
The deflate-compressed ZIP container itself is the external `zipfile`
library; the builder determines the entry names and contents. -/
theorem zip_archive_roundtrip (bs : List (List Nat)) (i : Nat) (b1 b2 : List Nat) :
    (create_photos_zip bs).length = bs.length ∧
    (create_photos_zip bs)[i]? = bs[i]?.map (fun b => (zipEntryName i, b)) ∧
    create_photos_zip [b1, b2] = [("photo_001.jpg", b1), ("photo_002.jpg", b2)] := by
  have h1 : zipEntryName 0 = "photo_001.jpg" := by decide
  have h2 : zipEntryName 1 = "photo_002.jpg" := by decide
  refine ⟨zipEntries_length 0 bs, ?_, ?_⟩
  · have := zipEntries_getElem? 0 i bs
    rwa [Nat.zero_add] at this
  · simp [create_photos_zip, zipEntries, h1, h2]

/-- C8: building an archive from the empty sequence does not fail: the
builder yields a valid archive with zero entries. -/
theorem zip_archive_empty :
    create_photos_zip [] = [] ∧ (create_photos_zip []).length = 0 :=
  ⟨rfl, rfl⟩

/-- C4 counterexample: the demo stand-in is NOT deterministic in the fixed
input alone. With a decoded image encoding of 50 and reference 0 the
similarity score is 50 (not below 35), so line 156 makes the result depend
on `random.random()`: a draw of 0 yields a match, a draw of 1 yields none. -/
theorem demo_match_random_draw_counterexample :
    check_face_match_demo (fun _ => some 50) (FetchResult.content [7]) 0 0 ≠
      check_face_match_demo (fun _ => some 50) (FetchResult.content [7]) 0 1 := by
  have h0 : ((0 : ℚ) < 1/4) := by norm_num
  have h1 : ¬ ((1 : ℚ) < 1/4) := by norm_num
  have hs : ¬ (similarity_score 50 0 < 35) := by decide
  simp only [check_face_match_demo, demo_is_match, decide_eq_true h0,
    decide_eq_false h1, decide_eq_false hs, Bool.or_false, Bool.false_or]
  simp

/-- C4 (amended): the match operation is deterministic given the results of
the external primitives and, in demo mode, the value drawn by
`random.random()` on that invocation; a fetch error, a decoding failure or
zero detected faces always yields `(false, none)` rather than an error, in
both variants; but the demo stand-in is independent of the random draw
exactly when the similarity score is below 35, so as a function of the
fixed input alone it is not deterministic. -/
theorem face_matcher_determinism {Img Enc : Type} (bytes : List Nat)
    (imdecode : List Nat → Option Img) (face_encs : Img → List Enc)
    (compare : Enc → Enc → ℚ → Bool) (reference : Enc) (tolerance : ℚ)
    (demo_encode : List Nat → Option Int) (ref e : Int) (d : ℚ) (img : Img) :
    check_face_match_real imdecode face_encs compare FetchResult.fetchError
      reference tolerance = (false, none) ∧
    check_face_match_real (fun _ => none) face_encs compare
      (FetchResult.content bytes) reference tolerance = (false, none) ∧
    check_face_match_real (fun _ => some img) (fun _ => ([] : List Enc)) compare
      (FetchResult.content bytes) reference tolerance = (false, none) ∧
    check_face_match_demo demo_encode FetchResult.fetchError ref d = (false, none) ∧
    check_face_match_demo (fun _ => none) (FetchResult.content bytes) ref d =
      (false, none) ∧
    ((∀ d1 d2 : ℚ, demo_is_match e ref d1 = demo_is_match e ref d2) ↔
      similarity_score e ref < 35) := by
  refine ⟨rfl, rfl, rfl, rfl, rfl, ?_, ?_⟩
  · intro h
    by_contra hs
    have h01 := h 0 1
    have hd0 : ((0 : ℚ) < 1/4) := by norm_num
    have hd1 : ¬ ((1 : ℚ) < 1/4) := by norm_num
    rw [demo_is_match, demo_is_match, decide_eq_false hs, decide_eq_true hd0,
      decide_eq_false hd1, Bool.or_false, Bool.false_or] at h01
    exact Bool.false_ne_true h01.symm
  · intro h d1 d2
    rw [demo_is_match, demo_is_match, decide_eq_true h, Bool.true_or, Bool.true_or]

end Mwi
